import Mathlib

/-!
Verification of the direct authenticator of
`implementations/rust/ockam/ockam_api/src/authenticator/direct.rs`.

The development is a shallow embedding of `Server::handle_message`,
`Server::on_request`, `Server::check_enroller`, `Server::parse_enrollers`
and the legacy migration in `Server::new`, together with the pieces of
external state they manipulate (the token LRU cache, the attribute store
and the enroller directory).

External collaborators that are not part of the authenticator file are
modelled explicitly:
* the `lru` crate's `LruCache` is modelled by a most-recently-used-first
  association list (`lruPut` / `lruPop`), following the crate's `put`
  and `pop` semantics as the spec describes them (spec section 4.D);
* request/response frames from `ockam_core::api` are modelled in their
  decoded form (spec section 4.A): a `Request` carries the result of
  each `Decoder::decode` call the handler may make on its payload, a
  decode failure being `none`;
* `AttributesEntry`, `Credential` building and `OneTimeCode` from the
  identity crate are modelled from the spec (sections 3 and 4.E);
* `serde_json`, `std::fs::read_to_string`, `minicbor::decode` and
  `IdentityIdentifier::try_from` are abstracted into an environment
  `Env` of fallible functions;
* the attribute store and credential signing are modelled as total:
  failures of those external subsystems are outside the properties
  studied here.

Machine integers never overflow in the modelled code, so byte strings
are lists of `Nat` and times are `Nat` seconds.
-/

/-- Identity: opaque stable identifier in canonical string form
(`IdentityIdentifier`). -/
abbrev Identity := String

/-- Opaque byte string (`Vec<u8>`). -/
abbrev Bytes := List Nat

/-- A one-time code key, `[u8; 32]` in the source. -/
abbrev Code := List Nat

/-- Modelled from the spec: `str::as_bytes`, an injective byte encoding
of a string.  The properties below only compare the resulting byte
strings for equality, so the code-point encoding stands in for UTF-8. -/
def strBytes (s : String) : Bytes :=
  s.data.map Char.toNat

/-- Association-list lookup: the `get`/`contains_key` of the hash maps
and of the lru cache in the source. -/
def alookup {α β : Type} [DecidableEq α] : List (α × β) → α → Option β
  | [], _ => none
  | (k1, v) :: rest, k => if k1 = k then some v else alookup rest k

/-- Remove every binding of a key from an association list. -/
def aerase {α β : Type} [DecidableEq α] : List (α × β) → α → List (α × β)
  | [], _ => []
  | (k1, v) :: rest, k => if k1 = k then aerase rest k else (k1, v) :: aerase rest k

/-- Upsert into an association list: the `put` of the hash maps and of
the attribute store (last-writer-wins). -/
def aput {α β : Type} [DecidableEq α] (l : List (α × β)) (k : α) (v : β) : List (α × β) :=
  (k, v) :: aerase l k

/-- Modelled from the spec (section 4.D) and the external `lru` crate:
`LruCache::put` on a most-recently-used-first list.  An existing binding
of the key is refreshed and moved to the front; a fresh insert that
overflows `cap` silently evicts the least-recently-used entry (the back
of the list). -/
def lruPut {α β : Type} [DecidableEq α] (cap : Nat) (k : α) (v : β)
    (l : List (α × β)) : List (α × β) :=
  ((k, v) :: aerase l k).take cap

/-- Modelled from the spec (section 4.D) and the external `lru` crate:
`LruCache::pop` removes and returns the binding of a key, leaving the
rest of the cache (and its recency order) untouched. -/
def lruPop {α β : Type} [DecidableEq α] (l : List (α × β)) (k : α) :
    Option β × List (α × β) :=
  match alookup l k with
  | none => (none, l)
  | some v => (some v, aerase l k)

/-- Token: value stored in the lru cache under a one-time code
(`struct Token` in the source; `time` is the mint instant). -/
structure Token where
  attrs : List (String × String)
  generated_by : Identity
  time : Nat
deriving DecidableEq

/-- Modelled from the spec (section 3): `AttributesEntry` of the
identity crate, as constructed by `AttributesEntry::new(attrs, now,
expires, attested_by)`. -/
structure AttributesEntry where
  attrs : List (String × Bytes)
  created_at : Nat
  expires_at : Option Nat
  attested_by : Option Identity
deriving DecidableEq

/-- The attribute store contents: a persistent map from identity to its
entry (`IdentityAttributeStorage`), modelled with total operations. -/
abbrev Store := List (Identity × AttributesEntry)

/-- Enroller descriptor (`types::Enroller`): human metadata only; its
presence in the directory is the sole authorization signal. -/
abbrev Enroller := String

/-- The in-memory enroller directory (`HashMap<IdentityIdentifier, Enroller>`). -/
abbrev EnrollerMap := List (Identity × Enroller)

/-- Request method enum of `ockam_core::api` (spec section 4.A). -/
inductive Method where
  | get
  | post
  | put
  | delete
  | patch
deriving DecidableEq

/-- Modelled from the spec (section 4.A): a request frame in decoded
form.  The header fields are `id`, `method`, `path` and the
body-present flag.  The three `decode…` fields record what each
`Decoder::decode::<T>()` call of the handler would yield on the bytes
following the header (`none` = decode failure). -/
structure Request where
  id : Nat
  method : Option Method
  path : String
  hasBody : Bool
  decodeCreateToken : Option (List (String × String))
  decodeAddMember : Option (Identity × List (String × String))
  decodeOneTimeCode : Option Code
deriving DecidableEq

/-- Response status enum of `ockam_core::api` (spec section 4.A). -/
inductive Status where
  | ok
  | badRequest
  | forbidden
  | notFound
  | methodNotAllowed
  | internalError
deriving DecidableEq

/-- Modelled from the spec (sections 3 and 4.E): the data a credential
issued by `Identity::issue_credential` binds together.  The builder
starts from a subject, `with_attribute` appends one claim and
`with_schema` sets the schema identifier; signing is delegated to the
external identity subsystem and is modelled as total. -/
structure Credential where
  subject : Identity
  schema : Option Nat
  attrs : List (String × Bytes)
deriving DecidableEq

/-- `Credential::builder` of the identity crate. -/
def credentialBuilder (subject : Identity) : Credential :=
  { subject := subject, schema := none, attrs := [] }

/-- `CredentialBuilder::with_attribute`. -/
def withAttribute (c : Credential) (k : String) (v : Bytes) : Credential :=
  { c with attrs := c.attrs ++ [(k, v)] }

/-- `CredentialBuilder::with_schema`. -/
def withSchema (c : Credential) (n : Nat) : Credential :=
  { c with schema := some n }

/-- Response body: empty, a one-time code, a credential, or an
`Error{message}` payload. -/
inductive RespBody where
  | empty
  | code (c : Code)
  | credential (c : Credential)
  | err (msg : String)
deriving DecidableEq

/-- Modelled from the spec (section 4.A): a response frame, echoing the
request id (`re`) with a status and a body. -/
structure Response where
  re : Nat
  status : Status
  body : RespBody
deriving DecidableEq

/-- `ockam_core::api::forbidden(req, msg)`. -/
def api_forbidden (reqId : Nat) (msg : String) : Response :=
  { re := reqId, status := Status.forbidden, body := RespBody.err msg }

/-- `ockam_core::api::internal_error(req, msg)`. -/
def api_internal_error (reqId : Nat) (msg : String) : Response :=
  { re := reqId, status := Status.internalError, body := RespBody.err msg }

/-- `ockam_core::api::unknown_path(req)`. -/
def api_unknown_path (req : Request) : Response :=
  { re := req.id, status := Status.notFound, body := RespBody.err req.path }

/-- `ockam_core::api::invalid_method(req)`. -/
def api_invalid_method (req : Request) : Response :=
  { re := req.id, status := Status.methodNotAllowed, body := RespBody.err "invalid method" }

/-- Split a list of characters at every slash. -/
def segsAux : List Char → List Char → List String
  | [], acc => [String.mk acc.reverse]
  | c :: cs, acc =>
      if c = '/' then String.mk acc.reverse :: segsAux cs [] else segsAux cs (c :: acc)

/-- Modelled from the spec (section 4.A): `Request::path_segments` —
the path split on slashes with empty segments dropped, as matched by
`on_request`. -/
def pathSegments (p : String) : List String :=
  (segsAux p.data []).filter (fun s => decide (s ≠ ""))

/-- The external fallible collaborators of the server, as functions:
`serde_json::from_str` for enroller documents, `std::fs::read_to_string`,
`minicbor::decode` for legacy member data and
`IdentityIdentifier::try_from` for legacy keys. -/
structure Env where
  parseJson : String → Except String EnrollerMap
  readFile : String → Except String String
  decodeLegacy : Bytes → Option (List (String × String))
  tryIdentifier : String → Option Identity

/-- The server state (`struct Server`): project id bytes, attribute
store, optional enroller source path, in-memory enroller map, reload
flag and the token cache (capacity 128 fixed in `Server::new`). -/
structure Server where
  project : Bytes
  store : Store
  filename : Option String
  enrollers : EnrollerMap
  reload_enrollers : Bool
  tokens : List (Code × Token)
deriving DecidableEq

/-- `MAX_TOKEN_DURATION` (600 seconds). -/
def MAX_TOKEN_DURATION : Nat := 600

/-- `PROJECT_MEMBER_SCHEMA = SchemaId(1)`. -/
def PROJECT_MEMBER_SCHEMA : Nat := 1

/-- `PROJECT_ID`, the reserved attribute name. -/
def PROJECT_ID : String := "project_id"

/-- Membership part of `Server::check_enroller`: `contains_key` yields
`Ok(None)`, otherwise `Ok(Some(forbidden "unauthorized enroller"))`. -/
def checkMember (s : Server) (req : Request) (enroller : Identity) :
    Server × Option Response :=
  match alookup s.enrollers enroller with
  | some _ => (s, none)
  | none => (s, some (api_forbidden req.id "unauthorized enroller"))

/-- `Server::check_enroller`: when the reload flag is set and a source
path is recorded, re-read and re-parse the enroller file (a failure is
an `Err` carried to the caller), replace the in-memory map on success,
then test membership. -/
def check_enroller (env : Env) (s : Server) (req : Request) (enroller : Identity) :
    Except String (Server × Option Response) :=
  match s.reload_enrollers, s.filename with
  | true, some f =>
      match env.readFile f with
      | Except.error e => Except.error e
      | Except.ok contents =>
          match env.parseJson contents with
          | Except.error e => Except.error e
          | Except.ok m => Except.ok (checkMember { s with enrollers := m } req enroller)
  | _, _ => Except.ok (checkMember s req enroller)

/-- The outcome of the reload step of `check_enroller`: the enroller map
the membership test will run against, or the reload failure. -/
def reloadResult (env : Env) (s : Server) : Except String EnrollerMap :=
  match s.reload_enrollers, s.filename with
  | true, some f =>
      match env.readFile f with
      | Except.error e => Except.error e
      | Except.ok contents => env.parseJson contents
  | _, _ => Except.ok s.enrollers

/-- `Server::on_request`.  `sender` is the authenticated peer identity,
`now` the current instant (used both for `Instant::now` and
`Timestamp::now`), `fresh` the one-time code `OneTimeCode::new` would
mint, and `data` the decoded request header (`none` = header decode
failure, which the source propagates with `?`, producing no response —
modelled as a `none` response).  The returned server is the mutated
`self`. -/
def on_request (env : Env) (now : Nat) (fresh : Code) (s : Server)
    (sender : Identity) (data : Option Request) : Server × Option Response :=
  match data with
  | none => (s, none)
  | some req =>
    if req.method = some Method.post then
      if pathSegments req.path = ["tokens"] then
        -- Enroller wants to create an enrollment token.
        match check_enroller env s req sender with
        | Except.error e => (s, some (api_internal_error req.id e))
        | Except.ok (s1, some err) => (s1, some err)
        | Except.ok (s1, none) =>
            match req.decodeCreateToken with
            | none => (s1, none)
            | some att =>
                let res : Response :=
                  { re := req.id, status := Status.ok, body := RespBody.code fresh }
                let tkn : Token := { attrs := att, generated_by := sender, time := now }
                ({ s1 with tokens := lruPut 128 fresh tkn s1.tokens }, some res)
      else if pathSegments req.path = ["members"] then
        -- Enroller wants to add a member.
        match check_enroller env s req sender with
        | Except.error e => (s, some (api_internal_error req.id e))
        | Except.ok (s1, some err) => (s1, some err)
        | Except.ok (s1, none) =>
            match req.decodeAddMember with
            | none => (s1, none)
            | some add =>
                let attrs := add.2.map (fun p => (p.1, strBytes p.2))
                let entry : AttributesEntry :=
                  { attrs := attrs, created_at := now, expires_at := none,
                    attested_by := some sender }
                ({ s1 with store := aput s1.store add.1 entry },
                 some { re := req.id, status := Status.ok, body := RespBody.empty })
      else if pathSegments req.path = ["credential"] then
        if req.hasBody then
          -- New member with an enrollment token wants its first credential.
          match req.decodeOneTimeCode with
          | none => (s, none)
          | some otc =>
              match lruPop s.tokens otc with
              | (some tkn, rest) =>
                  if now - tkn.time > MAX_TOKEN_DURATION then
                    ({ s with tokens := rest }, some (api_forbidden req.id "expired token"))
                  else
                    let attrs := tkn.attrs.map (fun p => (p.1, strBytes p.2))
                    let entry : AttributesEntry :=
                      { attrs := attrs, created_at := now, expires_at := none,
                        attested_by := some tkn.generated_by }
                    let crd :=
                      withAttribute
                        (withSchema
                          (tkn.attrs.foldl
                            (fun c p => withAttribute c p.1 (strBytes p.2))
                            (credentialBuilder sender))
                          PROJECT_MEMBER_SCHEMA)
                        PROJECT_ID s.project
                    ({ s with tokens := rest, store := aput s.store sender entry },
                     some { re := req.id, status := Status.ok, body := RespBody.credential crd })
              | (none, _) => (s, some (api_forbidden req.id "unknown token"))
        else
          -- Member wants a credential.
          match alookup s.store sender with
          | some entry =>
              let crd :=
                withAttribute
                  (entry.attrs.foldl
                    (fun c p => withAttribute c p.1 p.2)
                    (withSchema (credentialBuilder sender) PROJECT_MEMBER_SCHEMA))
                  PROJECT_ID s.project
              (s, some { re := req.id, status := Status.ok, body := RespBody.credential crd })
          | none => (s, some (api_forbidden req.id "unauthorized member"))
      else (s, some (api_unknown_path req))
    else (s, some (api_invalid_method req))

/-- `Server::handle_message`: with secure-channel identity metadata the
request is dispatched to `on_request`; without it the source decodes the
request header from the payload and answers
`forbidden "secure channel required"` — if that header decode fails the
error propagates and no response is sent (`none`). -/
def handle_message (env : Env) (now : Nat) (fresh : Code) (s : Server)
    (sender : Option Identity) (req : Option Request) : Server × Option Response :=
  match sender with
  | some i => on_request env now fresh s i req
  | none =>
      match req with
      | some r => (s, some (api_forbidden r.id "secure channel required"))
      | none => (s, none)

/-- `Server::parse_enrollers`: parse the input as an inline JSON
document first; on parse failure treat it as a path, read the file and
parse its contents, recording the path. -/
def parse_enrollers (env : Env) (json_or_path : String) :
    Except String (Option String × EnrollerMap) :=
  match env.parseJson json_or_path with
  | Except.ok enrollers => Except.ok (none, enrollers)
  | Except.error _ =>
      match env.readFile json_or_path with
      | Except.error e => Except.error e
      | Except.ok contents =>
          match env.parseJson contents with
          | Except.error e => Except.error e
          | Except.ok enrollers => Except.ok (some json_or_path, enrollers)

/-- The legacy migration loop of `Server::new`: for every key of the
legacy `member` storage, decode the stored text map, convert values to
bytes and upsert an entry with no expiry and no attester; any failure
aborts construction. -/
def migrate (env : Env) (now : Nat) : Store → List (String × Bytes) → Option Store
  | st, [] => some st
  | st, (k, data) :: rest =>
      match env.decodeLegacy data with
      | none => none
      | some m =>
          match env.tryIdentifier k with
          | none => none
          | some identifier =>
              let attrs := m.map (fun p => (p.1, strBytes p.2))
              let entry : AttributesEntry :=
                { attrs := attrs, created_at := now, expires_at := none, attested_by := none }
              migrate env now (aput st identifier entry) rest

/-- `Server::new`: parse the enroller source, run the legacy migration,
and start with an empty token cache of capacity 128. -/
def serverNew (env : Env) (now : Nat) (project : Bytes) (store0 : Store)
    (enrollers : String) (reload_enrollers : Bool)
    (legacy : List (String × Bytes)) : Option Server :=
  match parse_enrollers env enrollers with
  | Except.error _ => none
  | Except.ok (filename, enrollers_data) =>
      match migrate env now store0 legacy with
      | none => none
      | some st =>
          some { project := project, store := st, filename := filename,
                 enrollers := enrollers_data, reload_enrollers := reload_enrollers,
                 tokens := [] }

/-- One inbound framed message together with the environment snapshot
and clock at which the server handles it. -/
structure Event where
  env : Env
  now : Nat
  fresh : Code
  sender : Option Identity
  req : Option Request

/-- One `handle_message` step of the server on an event. -/
def step (s : Server) (e : Event) : Server × Option Response :=
  handle_message e.env e.now e.fresh s e.sender e.req

/-- Run the server over a sequence of inbound messages. -/
def runServer : Server → List Event → Server
  | s, [] => s
  | s, e :: es => runServer (step s e).1 es

/-- Number of events whose freshly minted code would be `C`
(`OneTimeCode::new` outputs are the `fresh` fields). -/
def freshCount (C : Code) (es : List Event) : Nat :=
  es.countP (fun e => decide (e.fresh = C))

/-- The event is a `/credential` request over a secure channel whose
body decodes to the one-time code `C` (a redemption attempt of `C`). -/
def isRedeem (C : Code) (e : Event) : Bool :=
  e.sender.isSome &&
  match e.req with
  | some r =>
      decide (r.method = some Method.post) &&
      decide (pathSegments r.path = ["credential"]) &&
      r.hasBody &&
      decide (r.decodeOneTimeCode = some C)
  | none => false

/-- The event is a redemption attempt of `C` that the server answers
with status OK (a successful redemption). -/
def redeemOk (C : Code) (s : Server) (e : Event) : Bool :=
  isRedeem C e &&
  match (step s e).2 with
  | some resp => decide (resp.status = Status.ok)
  | none => false

/-- Number of successful redemptions of `C` along a run. -/
def successCount (C : Code) : Server → List Event → Nat
  | _, [] => 0
  | s, e :: es => (if redeemOk C s e then 1 else 0) + successCount C (step s e).1 es

/-- 1 when the cache holds a live token under `C`, else 0. -/
def presenceNat (C : Code) (s : Server) : Nat :=
  if alookup s.tokens C = none then 0 else 1

/-! ### Concrete sample data used by the witnesses -/

/-- An environment in which every external parse and read fails. -/
def envA : Env :=
  { parseJson := fun _ => Except.error "parse error",
    readFile := fun _ => Except.error "io error",
    decodeLegacy := fun _ => none,
    tryIdentifier := fun k => some k }

/-- An environment whose enroller source parses as an inline document
and whose legacy storage decodes. -/
def envInline : Env :=
  { parseJson := fun d => if d = "doc" then Except.ok [("E1", "enroller one")]
      else Except.error "bad document",
    readFile := fun _ => Except.error "io error",
    decodeLegacy := fun b => if b = [7] then some [("team", "A")] else none,
    tryIdentifier := fun k => some k }

/-- An environment in which the enroller file reads and parses. -/
def envReloadOk : Env :=
  { parseJson := fun d => if d = "newdoc" then Except.ok [("E2", "enroller two")]
      else Except.error "bad document",
    readFile := fun f => if f = "enr.json" then Except.ok "newdoc"
      else Except.error "io error",
    decodeLegacy := fun _ => none,
    tryIdentifier := fun k => some k }

/-- A server with a fixed inline enroller map and no reload. -/
def srvA : Server :=
  { project := [1, 2], store := [], filename := none,
    enrollers := [("E1", "enroller one")], reload_enrollers := false, tokens := [] }

/-- A server configured to reload its enroller file on every check. -/
def srvR : Server :=
  { project := [1], store := [], filename := some "enr.json",
    enrollers := [("E1", "old")], reload_enrollers := true, tokens := [] }

/-- A server holding one live token minted by `E1` at time 0. -/
def srvTok : Server :=
  { project := [1, 2], store := [], filename := none,
    enrollers := [("E1", "enroller one")], reload_enrollers := false,
    tokens := [([5], { attrs := [("role", "member")], generated_by := "E1", time := 0 })] }

/-- A decoded `POST /tokens` request. -/
def reqMint : Request :=
  { id := 1, method := some Method.post, path := "/tokens", hasBody := true,
    decodeCreateToken := some [("role", "member")],
    decodeAddMember := none, decodeOneTimeCode := none }

/-- A decoded `POST /members` request. -/
def reqMembers : Request :=
  { id := 3, method := some Method.post, path := "/members", hasBody := true,
    decodeCreateToken := none,
    decodeAddMember := some ("M2", [("team", "A")]), decodeOneTimeCode := none }

/-- A decoded `POST /credential` request carrying the code `[5]`. -/
def reqRedeem : Request :=
  { id := 2, method := some Method.post, path := "/credential", hasBody := true,
    decodeCreateToken := none, decodeAddMember := none, decodeOneTimeCode := some [5] }

/-- A decoded bodiless `POST /credential` request. -/
def reqCredPlain : Request :=
  { id := 4, method := some Method.post, path := "/credential", hasBody := false,
    decodeCreateToken := none, decodeAddMember := none, decodeOneTimeCode := none }

/-- Event: enroller `E1` mints the code `[5]`. -/
def evMint : Event :=
  { env := envA, now := 0, fresh := [5], sender := some "E1", req := some reqMint }

/-- Event: peer `M1` redeems `[5]` at time 10. -/
def evRedeem1 : Event :=
  { env := envA, now := 10, fresh := [6], sender := some "M1", req := some reqRedeem }

/-- Event: peer `M1` presents `[5]` again at time 20. -/
def evRedeem2 : Event :=
  { env := envA, now := 20, fresh := [7], sender := some "M1", req := some reqRedeem }

/-- Mint, redeem, redeem again. -/
def esA : List Event := [evMint, evRedeem1, evRedeem2]

/-- A throwaway token value. -/
def tkn0 : Token := { attrs := [], generated_by := "E1", time := 0 }

/-- A full cache: 128 distinct one-byte codes. -/
def l128 : List (Code × Token) := (List.range 128).map (fun n => ([n], tkn0))

/-- A stored attribute entry for `M2`, attested by `E1`. -/
def entryA : AttributesEntry :=
  { attrs := [("team", strBytes "A")], created_at := 0, expires_at := none,
    attested_by := some "E1" }

/-- A server with a stored member entry for `M2`. -/
def srvMem : Server :=
  { project := [1, 2], store := [("M2", entryA)], filename := none,
    enrollers := [("E1", "enroller one")], reload_enrollers := false, tokens := [] }

/-- A server holding a token minted by `E1` although `E1` is no longer
in the enroller directory. -/
def srvTokNoE : Server :=
  { project := [1, 2], store := [], filename := none,
    enrollers := [], reload_enrollers := false,
    tokens := [([5], { attrs := [("role", "member")], generated_by := "E1", time := 0 })] }

/-- The entry the legacy migration writes for `M9`. -/
def entryLegacy : AttributesEntry :=
  { attrs := [("team", strBytes "A")], created_at := 0, expires_at := none,
    attested_by := none }

/-- The server `serverNew` builds from an inline document and one
legacy record. -/
def srvLegacy : Server :=
  { project := [1], store := [("M9", entryLegacy)], filename := none,
    enrollers := [("E1", "enroller one")], reload_enrollers := false, tokens := [] }

/-- A `POST /tokens` request whose `CreateToken` body fails to decode. -/
def reqMintBad : Request :=
  { id := 5, method := some Method.post, path := "/tokens", hasBody := true,
    decodeCreateToken := none, decodeAddMember := none, decodeOneTimeCode := none }

/-- A `POST /credential` request whose `OneTimeCode` body fails to decode. -/
def reqRedeemBad : Request :=
  { id := 6, method := some Method.post, path := "/credential", hasBody := true,
    decodeCreateToken := none, decodeAddMember := none, decodeOneTimeCode := none }

/-! ### Association-list and cache lemmas -/

theorem alookup_aerase {α β : Type} [DecidableEq α] (l : List (α × β)) (k j : α) :
    alookup (aerase l k) j = if j = k then none else alookup l j := by
  induction l with
  | nil => simp [aerase, alookup]
  | cons p rest ih =>
      obtain ⟨k1, v⟩ := p
      simp only [aerase]
      by_cases h1 : k1 = k
      · rw [if_pos h1, ih]
        by_cases h2 : j = k
        · simp [h2]
        · have hne : ¬ k1 = j := by
            rw [h1]; intro hh; exact h2 hh.symm
          simp [h2, alookup, hne]
      · rw [if_neg h1]
        simp only [alookup]
        by_cases h2 : k1 = j
        · have hjk : ¬ j = k := by
            intro hh; exact h1 (by rw [h2, hh])
          rw [if_pos h2, if_neg hjk, if_pos h2]
        · rw [if_neg h2, ih]
          by_cases h3 : j = k
          · rw [if_pos h3, if_pos h3]
          · rw [if_neg h3, if_neg h3, if_neg h2]

theorem aerase_of_none {α β : Type} [DecidableEq α] (l : List (α × β)) (k : α)
    (h : alookup l k = none) : aerase l k = l := by
  induction l with
  | nil => rfl
  | cons p rest ih =>
      obtain ⟨k1, v⟩ := p
      by_cases h1 : k1 = k
      · simp [alookup, h1] at h
      · simp [alookup, h1] at h
        simp [aerase, h1, ih h]

theorem aerase_length_le {α β : Type} [DecidableEq α] (l : List (α × β)) (k : α) :
    (aerase l k).length ≤ l.length := by
  induction l with
  | nil => simp [aerase]
  | cons p rest ih =>
      obtain ⟨k1, v⟩ := p
      by_cases h1 : k1 = k <;> simp [aerase, h1] <;> omega

theorem alookup_aput {α β : Type} [DecidableEq α] (l : List (α × β)) (k j : α) (v : β) :
    alookup (aput l k v) j = if j = k then some v else alookup l j := by
  by_cases h : k = j
  · subst h; simp [aput, alookup]
  · have h1 : ¬ j = k := fun hh => h hh.symm
    simp [aput, alookup, h, h1, alookup_aerase]

theorem alookup_take_none {α β : Type} [DecidableEq α] (l : List (α × β)) (k : α) (n : Nat)
    (h : alookup l k = none) : alookup (l.take n) k = none := by
  induction l generalizing n with
  | nil => simp [List.take, alookup]
  | cons p rest ih =>
      obtain ⟨k1, v⟩ := p
      cases n with
      | zero => rfl
      | succ n =>
          by_cases h1 : k1 = k
          · simp [alookup, h1] at h
          · simp [alookup, h1] at h
            simp [List.take, alookup, h1, ih n h]

theorem lruPut_length_le {α β : Type} [DecidableEq α] (cap : Nat) (k : α) (v : β)
    (l : List (α × β)) : (lruPut cap k v l).length ≤ cap := by
  simp [lruPut, List.length_take]

theorem lruPut_alookup_ne {α β : Type} [DecidableEq α] (cap : Nat) (k j : α) (v : β)
    (l : List (α × β)) (hne : j ≠ k) (h : alookup l j = none) :
    alookup (lruPut cap k v l) j = none := by
  apply alookup_take_none
  have h2 : alookup (aerase l k) j = none := by
    rw [alookup_aerase]
    by_cases hjk : j = k
    · simp [hjk]
    · simp [hjk, h]
  have hkj : ¬ k = j := fun hh => hne hh.symm
  simp [alookup, hkj, h2]

theorem lruPut_full {α β : Type} [DecidableEq α] (k : α) (v : β) (l : List (α × β))
    (hlen : l.length = 128) (habs : alookup l k = none) :
    lruPut 128 k v l = (k, v) :: l.dropLast := by
  rw [lruPut, aerase_of_none l k habs]
  rw [show ((k, v) :: l).take 128 = (k, v) :: l.take 127 from rfl]
  rw [List.dropLast_eq_take, hlen]

/-! ### `check_enroller` structure lemmas -/

theorem checkMember_fst (s : Server) (req : Request) (i : Identity) :
    (checkMember s req i).1 = s := by
  unfold checkMember
  cases alookup s.enrollers i <;> rfl

theorem check_enroller_reload (env : Env) (s : Server) (req : Request) (i : Identity) :
    check_enroller env s req i =
      match reloadResult env s with
      | Except.error e => Except.error e
      | Except.ok m => Except.ok (checkMember { s with enrollers := m } req i) := by
  obtain ⟨proj, st, fn, en, rl, tk⟩ := s
  unfold check_enroller reloadResult
  cases rl <;> cases fn <;> simp
  case true.some f =>
    cases env.readFile f with
    | error e => rfl
    | ok contents => cases env.parseJson contents <;> rfl

theorem check_enroller_nofile (env : Env) (s : Server) (req : Request) (i : Identity)
    (hf : s.filename = none) :
    check_enroller env s req i = Except.ok (checkMember s req i) := by
  obtain ⟨proj, st, fn, en, rl, tk⟩ := s
  simp only at hf
  subst hf
  unfold check_enroller
  cases rl <;> rfl

theorem checkMember_mem (s : Server) (req : Request) (i : Identity)
    (h : (alookup s.enrollers i).isSome = true) :
    checkMember s req i = (s, none) := by
  unfold checkMember
  cases halk : alookup s.enrollers i with
  | none => rw [halk] at h; simp at h
  | some e => rfl

theorem checkMember_notmem (s : Server) (req : Request) (i : Identity)
    (h : alookup s.enrollers i = none) :
    checkMember s req i = (s, some (api_forbidden req.id "unauthorized enroller")) := by
  unfold checkMember
  rw [h]

/-! ### Branch normal forms of `on_request` -/

theorem on_request_header_fail (env : Env) (now : Nat) (fresh : Code) (s : Server)
    (i : Identity) : on_request env now fresh s i none = (s, none) := rfl

theorem on_request_tokens (env : Env) (now : Nat) (fresh : Code) (s : Server)
    (i : Identity) (r : Request)
    (hm : r.method = some Method.post)
    (hp : pathSegments r.path = ["tokens"]) :
    on_request env now fresh s i (some r) =
      match reloadResult env s with
      | Except.error e => (s, some (api_internal_error r.id e))
      | Except.ok m =>
          if (alookup m i).isSome then
            match r.decodeCreateToken with
            | none => ({ s with enrollers := m }, none)
            | some att =>
                ({ s with
                     enrollers := m
                     tokens := lruPut 128 fresh
                       { attrs := att, generated_by := i, time := now } s.tokens },
                 some { re := r.id, status := Status.ok, body := RespBody.code fresh })
          else ({ s with enrollers := m },
                some (api_forbidden r.id "unauthorized enroller")) := by
  simp only [on_request]
  rw [hm, hp]
  rw [if_pos rfl, if_pos rfl]
  rw [check_enroller_reload]
  cases hrel : reloadResult env s with
  | error e => rfl
  | ok m =>
      simp only [checkMember]
      cases halk : alookup m i with
      | none => simp [halk]
      | some enr =>
          simp only [halk, Option.isSome_some, if_pos]

theorem on_request_members (env : Env) (now : Nat) (fresh : Code) (s : Server)
    (i : Identity) (r : Request)
    (hm : r.method = some Method.post)
    (hp : pathSegments r.path = ["members"]) :
    on_request env now fresh s i (some r) =
      match reloadResult env s with
      | Except.error e => (s, some (api_internal_error r.id e))
      | Except.ok m =>
          if (alookup m i).isSome then
            match r.decodeAddMember with
            | none => ({ s with enrollers := m }, none)
            | some add =>
                ({ s with
                     enrollers := m
                     store := aput s.store add.1
                       { attrs := add.2.map (fun p => (p.1, strBytes p.2)),
                         created_at := now, expires_at := none,
                         attested_by := some i } },
                 some { re := r.id, status := Status.ok, body := RespBody.empty })
          else ({ s with enrollers := m },
                some (api_forbidden r.id "unauthorized enroller")) := by
  simp only [on_request]
  rw [hm, hp]
  rw [if_pos rfl, if_neg (by decide), if_pos rfl]
  rw [check_enroller_reload]
  cases hrel : reloadResult env s with
  | error e => rfl
  | ok m =>
      simp only [checkMember]
      cases halk : alookup m i with
      | none => simp [halk]
      | some enr =>
          simp only [halk, Option.isSome_some, if_pos]

theorem on_request_redeem (env : Env) (now : Nat) (fresh : Code) (s : Server)
    (i : Identity) (r : Request) (C : Code)
    (hm : r.method = some Method.post)
    (hp : pathSegments r.path = ["credential"])
    (hb : r.hasBody = true)
    (hc : r.decodeOneTimeCode = some C) :
    on_request env now fresh s i (some r) =
      match alookup s.tokens C with
      | none => (s, some (api_forbidden r.id "unknown token"))
      | some tkn =>
          if now - tkn.time > MAX_TOKEN_DURATION then
            ({ s with tokens := aerase s.tokens C },
             some (api_forbidden r.id "expired token"))
          else
            ({ s with
                 tokens := aerase s.tokens C
                 store := aput s.store i
                   { attrs := tkn.attrs.map (fun p => (p.1, strBytes p.2)),
                     created_at := now, expires_at := none,
                     attested_by := some tkn.generated_by } },
             some { re := r.id, status := Status.ok,
                    body := RespBody.credential
                      (withAttribute
                        (withSchema
                          (tkn.attrs.foldl
                            (fun c p => withAttribute c p.1 (strBytes p.2))
                            (credentialBuilder i))
                          PROJECT_MEMBER_SCHEMA)
                        PROJECT_ID s.project) }) := by
  simp only [on_request]
  rw [hm, hp, hb, hc]
  rw [if_pos rfl, if_neg (by decide), if_neg (by decide), if_pos rfl, if_pos rfl]
  simp only [lruPop]
  cases halk : alookup s.tokens C with
  | none => rfl
  | some tkn => by_cases hexp : now - tkn.time > MAX_TOKEN_DURATION <;> simp [hexp]

theorem on_request_credential_nobody (env : Env) (now : Nat) (fresh : Code) (s : Server)
    (i : Identity) (r : Request)
    (hm : r.method = some Method.post)
    (hp : pathSegments r.path = ["credential"])
    (hb : r.hasBody = false) :
    on_request env now fresh s i (some r) =
      match alookup s.store i with
      | some entry =>
          (s, some { re := r.id, status := Status.ok,
                     body := RespBody.credential
                       (withAttribute
                         (entry.attrs.foldl
                           (fun c p => withAttribute c p.1 p.2)
                           (withSchema (credentialBuilder i) PROJECT_MEMBER_SCHEMA))
                         PROJECT_ID s.project) })
      | none => (s, some (api_forbidden r.id "unauthorized member")) := by
  simp only [on_request]
  rw [hm, hp, hb]
  rw [if_pos rfl, if_neg (by decide), if_neg (by decide), if_pos rfl, if_neg (by decide)]

theorem on_request_redeem_decode_fail (env : Env) (now : Nat) (fresh : Code) (s : Server)
    (i : Identity) (r : Request)
    (hm : r.method = some Method.post)
    (hp : pathSegments r.path = ["credential"])
    (hb : r.hasBody = true)
    (hc : r.decodeOneTimeCode = none) :
    on_request env now fresh s i (some r) = (s, none) := by
  simp only [on_request]
  rw [hm, hp, hb, hc]
  rw [if_pos rfl, if_neg (by decide), if_neg (by decide), if_pos rfl, if_pos rfl]

theorem on_request_unknown_path (env : Env) (now : Nat) (fresh : Code) (s : Server)
    (i : Identity) (r : Request)
    (hm : r.method = some Method.post)
    (h1 : pathSegments r.path ≠ ["tokens"])
    (h2 : pathSegments r.path ≠ ["members"])
    (h3 : pathSegments r.path ≠ ["credential"]) :
    on_request env now fresh s i (some r) = (s, some (api_unknown_path r)) := by
  simp only [on_request]
  rw [hm, if_pos rfl, if_neg h1, if_neg h2, if_neg h3]

theorem on_request_bad_method (env : Env) (now : Nat) (fresh : Code) (s : Server)
    (i : Identity) (r : Request)
    (hm : ¬ r.method = some Method.post) :
    on_request env now fresh s i (some r) = (s, some (api_invalid_method r)) := by
  simp only [on_request]
  rw [if_neg hm]

/-! ### Trace-level lemmas -/

theorem runServer_append (xs ys : List Event) : ∀ s : Server,
    runServer s (xs ++ ys) = runServer (runServer s xs) ys := by
  induction xs with
  | nil => intro s; rfl
  | cons e es ih => intro s; simp only [List.cons_append, runServer]; exact ih _

theorem step_some (env : Env) (now : Nat) (fresh : Code) (s : Server)
    (i : Identity) (req : Option Request) :
    step s { env := env, now := now, fresh := fresh, sender := some i, req := req } =
      on_request env now fresh s i req := rfl

theorem step_tokens_cases (s : Server) (e : Event) :
    (step s e).1.tokens = s.tokens ∨
    (∃ t, (step s e).1.tokens = lruPut 128 e.fresh t s.tokens) ∨
    (∃ c, (step s e).1.tokens = aerase s.tokens c) := by
  obtain ⟨env, now, fresh, sender, req⟩ := e
  cases sender with
  | none => cases req <;> exact Or.inl rfl
  | some i =>
      cases req with
      | none => exact Or.inl rfl
      | some r =>
          rw [step_some]
          by_cases hm : r.method = some Method.post
          · by_cases h1 : pathSegments r.path = ["tokens"]
            · rw [on_request_tokens env now fresh s i r hm h1]
              cases reloadResult env s with
              | error e2 => exact Or.inl rfl
              | ok m =>
                  dsimp only
                  by_cases hmem : (alookup m i).isSome
                  · rw [if_pos hmem]
                    cases r.decodeCreateToken with
                    | none => exact Or.inl rfl
                    | some att => exact Or.inr (Or.inl ⟨_, rfl⟩)
                  · rw [if_neg hmem]; exact Or.inl rfl
            · by_cases h2 : pathSegments r.path = ["members"]
              · rw [on_request_members env now fresh s i r hm h2]
                cases reloadResult env s with
                | error e2 => exact Or.inl rfl
                | ok m =>
                    dsimp only
                    by_cases hmem : (alookup m i).isSome
                    · rw [if_pos hmem]
                      cases r.decodeAddMember with
                      | none => exact Or.inl rfl
                      | some add => exact Or.inl rfl
                    · rw [if_neg hmem]; exact Or.inl rfl
              · by_cases h3 : pathSegments r.path = ["credential"]
                · cases hb : r.hasBody with
                  | false =>
                      rw [on_request_credential_nobody env now fresh s i r hm h3 hb]
                      cases alookup s.store i <;> exact Or.inl rfl
                  | true =>
                      cases hc : r.decodeOneTimeCode with
                      | none =>
                          rw [on_request_redeem_decode_fail env now fresh s i r hm h3 hb hc]
                          exact Or.inl rfl
                      | some C =>
                          rw [on_request_redeem env now fresh s i r C hm h3 hb hc]
                          cases alookup s.tokens C with
                          | none => exact Or.inl rfl
                          | some tkn =>
                              dsimp only
                              by_cases hexp : now - tkn.time > MAX_TOKEN_DURATION
                              · rw [if_pos hexp]; exact Or.inr (Or.inr ⟨C, rfl⟩)
                              · rw [if_neg hexp]; exact Or.inr (Or.inr ⟨C, rfl⟩)
                · rw [on_request_unknown_path env now fresh s i r hm h1 h2 h3]
                  exact Or.inl rfl
          · rw [on_request_bad_method env now fresh s i r hm]
            exact Or.inl rfl

theorem step_tokens_length (s : Server) (e : Event) (h : s.tokens.length ≤ 128) :
    (step s e).1.tokens.length ≤ 128 := by
  rcases step_tokens_cases s e with h1 | ⟨t, h1⟩ | ⟨c, h1⟩
  · rw [h1]; exact h
  · rw [h1]; exact lruPut_length_le 128 e.fresh t s.tokens
  · rw [h1]; exact le_trans (aerase_length_le s.tokens c) h

theorem runServer_tokens_length (es : List Event) : ∀ s : Server,
    s.tokens.length ≤ 128 → (runServer s es).tokens.length ≤ 128 := by
  induction es with
  | nil => intro s h; exact h
  | cons e es ih =>
      intro s h
      exact ih (step s e).1 (step_tokens_length s e h)

theorem absent_step (C : Code) (s : Server) (e : Event)
    (habs : alookup s.tokens C = none) (hfr : e.fresh ≠ C) :
    alookup (step s e).1.tokens C = none := by
  rcases step_tokens_cases s e with h1 | ⟨t, h1⟩ | ⟨c, h1⟩
  · rw [h1]; exact habs
  · rw [h1]
    exact lruPut_alookup_ne 128 e.fresh C t s.tokens (fun hh => hfr hh.symm) habs
  · rw [h1, alookup_aerase]
    by_cases hck : C = c
    · simp [hck]
    · simp [hck, habs]

theorem freshCount_cons (C : Code) (e : Event) (es : List Event) :
    freshCount C (e :: es) = (if e.fresh = C then 1 else 0) + freshCount C es := by
  unfold freshCount
  rw [List.countP_cons]
  by_cases h : e.fresh = C
  · simp [h]
    omega
  · simp [h]

theorem absent_run (C : Code) (es : List Event) : ∀ s : Server,
    alookup s.tokens C = none → freshCount C es = 0 →
    alookup (runServer s es).tokens C = none := by
  induction es with
  | nil => intro s h _; exact h
  | cons e es ih =>
      intro s h hz
      rw [freshCount_cons] at hz
      have hfr : e.fresh ≠ C := by
        intro hh
        rw [if_pos hh] at hz
        omega
      have hz2 : freshCount C es = 0 := by
        by_cases hh : e.fresh = C
        · exact absurd hh hfr
        · rw [if_neg hh] at hz; omega
      exact ih (step s e).1 (absent_step C s e h hfr) hz2

theorem isRedeem_spec (C : Code) (e : Event) (h : isRedeem C e = true) :
    ∃ i r, e.sender = some i ∧ e.req = some r ∧ r.method = some Method.post ∧
      pathSegments r.path = ["credential"] ∧ r.hasBody = true ∧
      r.decodeOneTimeCode = some C := by
  unfold isRedeem at h
  cases hs : e.sender with
  | none => rw [hs] at h; simp at h
  | some i =>
      cases hr : e.req with
      | none => rw [hs, hr] at h; simp at h
      | some r =>
          rw [hs, hr] at h
          simp only [Option.isSome_some, Bool.true_and, Bool.and_eq_true,
            decide_eq_true_eq] at h
          exact ⟨i, r, rfl, rfl, h.1.1.1, h.1.1.2, h.1.2, h.2⟩

theorem absent_redeem_step (C : Code) (s : Server) (e : Event) (r : Request)
    (habs : alookup s.tokens C = none) (hred : isRedeem C e = true)
    (hr2 : e.req = some r) :
    (step s e).2 = some (api_forbidden r.id "unknown token") := by
  obtain ⟨i, r0, hs, hr, hm, hp, hb, hc⟩ := isRedeem_spec C e hred
  have hrr : r0 = r := by
    rw [hr] at hr2; exact Option.some.inj hr2
  subst hrr
  obtain ⟨env, now, fresh, sender, req⟩ := e
  dsimp only at hs hr
  subst hs; subst hr
  rw [step_some, on_request_redeem env now fresh s i r0 C hm hp hb hc, habs]

theorem redeem_absent_after (C : Code) (s : Server) (e : Event)
    (hred : isRedeem C e = true) :
    alookup (step s e).1.tokens C = none := by
  obtain ⟨i, r, hs, hr, hm, hp, hb, hc⟩ := isRedeem_spec C e hred
  obtain ⟨env, now, fresh, sender, req⟩ := e
  dsimp only at hs hr
  subst hs; subst hr
  rw [step_some, on_request_redeem env now fresh s i r C hm hp hb hc]
  cases halk : alookup s.tokens C with
  | none => dsimp only; exact halk
  | some tkn =>
      dsimp only
      by_cases hexp : now - tkn.time > MAX_TOKEN_DURATION
      · rw [if_pos hexp]
        dsimp only
        rw [alookup_aerase]
        simp
      · rw [if_neg hexp]
        dsimp only
        rw [alookup_aerase]
        simp

theorem redeemOk_present (C : Code) (s : Server) (e : Event)
    (h : redeemOk C s e = true) : ¬ alookup s.tokens C = none := by
  intro habs
  unfold redeemOk at h
  rw [Bool.and_eq_true] at h
  obtain ⟨hred, hok⟩ := h
  obtain ⟨i, r, hs, hr, hm, hp, hb, hc⟩ := isRedeem_spec C e hred
  rw [absent_redeem_step C s e r habs hred hr] at hok
  simp [api_forbidden] at hok

theorem successCount_le (C : Code) (es : List Event) : ∀ s : Server,
    successCount C s es ≤ presenceNat C s + freshCount C es := by
  induction es with
  | nil => intro s; simp [successCount, freshCount]
  | cons e es ih =>
      intro s
      rw [freshCount_cons]
      show (if redeemOk C s e then 1 else 0) + successCount C (step s e).1 es ≤ _
      have h2 := ih (step s e).1
      have key : (if redeemOk C s e then 1 else 0) + presenceNat C (step s e).1 ≤
          presenceNat C s + (if e.fresh = C then 1 else 0) := by
        by_cases hok : redeemOk C s e
        · rw [if_pos hok]
          have hred : isRedeem C e = true := by
            have h3 := hok
            unfold redeemOk at h3
            rw [Bool.and_eq_true] at h3
            exact h3.1
          have h4 : presenceNat C s = 1 := by
            unfold presenceNat
            rw [if_neg (redeemOk_present C s e hok)]
          have h5 : presenceNat C (step s e).1 = 0 := by
            unfold presenceNat
            rw [if_pos (redeem_absent_after C s e hred)]
          rw [h4, h5]
          by_cases hf : e.fresh = C <;> simp [hf]
        · rw [if_neg hok]
          by_cases hf : e.fresh = C
          · rw [if_pos hf]
            have h6 : presenceNat C (step s e).1 ≤ 1 := by
              unfold presenceNat; split <;> omega
            omega
          · rw [if_neg hf]
            have hmono : presenceNat C (step s e).1 ≤ presenceNat C s := by
              unfold presenceNat
              by_cases habs : alookup s.tokens C = none
              · rw [if_pos habs, if_pos (absent_step C s e habs hf)]
              · rw [if_neg habs]; split <;> omega
            omega
      omega

/-! ### C1: token single use -/

/-- C1: for a one-time code `C` that is not initially cached and that
`OneTimeCode::new` yields at most once along a trace, (1) at most one
`/credential` request carrying `C` is answered OK; (2) any request
carrying `C` after an earlier redemption attempt of `C` (successful or
expired), with no intervening re-mint of `C`, is answered
Forbidden("unknown token"); (3) likewise any request carrying `C` at a
point where `C` is no longer cached (e.g. after LRU eviction). -/
theorem token_single_use (C : Code) (s0 : Server) (es : List Event)
    (h0 : alookup s0.tokens C = none) (h1 : freshCount C es ≤ 1) :
    successCount C s0 es ≤ 1 ∧
    (∀ xs f ys g zs r, es = xs ++ f :: (ys ++ g :: zs) →
       isRedeem C f = true → isRedeem C g = true → freshCount C ys = 0 →
       g.req = some r →
       (step (runServer s0 (xs ++ f :: ys)) g).2 =
         some (api_forbidden r.id "unknown token")) ∧
    (∀ us f vs r, es = us ++ f :: vs → isRedeem C f = true →
       alookup (runServer s0 us).tokens C = none → f.req = some r →
       (step (runServer s0 us) f).2 = some (api_forbidden r.id "unknown token")) := by
  refine ⟨?_, ?_, ?_⟩
  · have h2 := successCount_le C es s0
    have h3 : presenceNat C s0 = 0 := by
      unfold presenceNat
      rw [if_pos h0]
    omega
  · intro xs f ys g zs r heq hf hg hz hr
    have hstep : runServer s0 (xs ++ f :: ys) =
        runServer (step (runServer s0 xs) f).1 ys := by
      rw [runServer_append]
      rfl
    rw [hstep]
    apply absent_redeem_step C _ g r _ hg hr
    exact absent_run C ys _ (redeem_absent_after C (runServer s0 xs) f hf) hz
  · intro us f vs r heq hf habs hr
    exact absent_redeem_step C _ f r habs hf hr

/-- Witness for C1: the mint-redeem-redeem trace `esA` satisfies the
hypotheses, and the theorem applies. -/
theorem token_single_use_witness :
    alookup srvA.tokens ([5] : Code) = none ∧ freshCount [5] esA ≤ 1 ∧
    successCount [5] srvA esA ≤ 1 :=
  ⟨rfl, by decide, (token_single_use [5] srvA esA rfl (by decide)).1⟩

/-! ### C2: channel gating -/

/-- C2 counterexample: a message without secure-channel metadata whose
payload does not decode as a request header produces no response at all
(`handle_message` fails with the decode error), not the promised
Forbidden("secure channel required") response.  The state is untouched. -/
theorem secure_channel_gating_counterexample :
    (handle_message envA 0 [] srvA none none).2 = none ∧
    (handle_message envA 0 [] srvA none none).1 = srvA :=
  ⟨rfl, rfl⟩

/-- C2 (amended): for every message lacking secure-channel metadata
whose payload decodes as a request header, the server responds
Forbidden("secure channel required") and leaves the state untouched —
the endpoint body decode results of the request are never consulted
(the conclusion holds for every `r`); when the header itself fails to
decode the handler errors out producing no response. -/
theorem secure_channel_gating (env : Env) (now : Nat) (fresh : Code) (s : Server)
    (r : Request) :
    handle_message env now fresh s none (some r) =
      (s, some (api_forbidden r.id "secure channel required")) ∧
    handle_message env now fresh s none none = (s, none) :=
  ⟨rfl, rfl⟩

/-! ### C4: token expiry -/

/-- C4: a redemption of a cached code `C` at `now` with
`now - t_mint > 600` is answered Forbidden("expired token"), the
attribute store is not written, and the token is nonetheless removed
from the cache. -/
theorem token_expiry (env : Env) (now : Nat) (fresh : Code) (s : Server)
    (i : Identity) (r : Request) (C : Code) (tkn : Token)
    (hm : r.method = some Method.post)
    (hp : pathSegments r.path = ["credential"])
    (hb : r.hasBody = true)
    (hc : r.decodeOneTimeCode = some C)
    (htk : alookup s.tokens C = some tkn)
    (hexp : now - tkn.time > MAX_TOKEN_DURATION) :
    on_request env now fresh s i (some r) =
      ({ s with tokens := aerase s.tokens C },
       some (api_forbidden r.id "expired token")) ∧
    (on_request env now fresh s i (some r)).1.store = s.store ∧
    alookup (on_request env now fresh s i (some r)).1.tokens C = none := by
  have h1 : on_request env now fresh s i (some r) =
      ({ s with tokens := aerase s.tokens C },
       some (api_forbidden r.id "expired token")) := by
    rw [on_request_redeem env now fresh s i r C hm hp hb hc, htk]
    dsimp only
    rw [if_pos hexp]
  refine ⟨h1, ?_, ?_⟩
  · rw [h1]
  · rw [h1]
    dsimp only
    rw [alookup_aerase]
    simp

/-- Witness for C4: the token minted at time 0 is redeemed at time 700. -/
theorem token_expiry_witness :
    alookup srvTok.tokens [5] =
      some { attrs := [("role", "member")], generated_by := "E1", time := 0 } ∧
    700 - 0 > MAX_TOKEN_DURATION ∧
    on_request envA 700 [] srvTok "M1" (some reqRedeem) =
      ({ srvTok with tokens := aerase srvTok.tokens [5] },
       some (api_forbidden reqRedeem.id "expired token")) :=
  ⟨rfl, by decide,
   (token_expiry envA 700 [] srvTok "M1" reqRedeem [5]
     { attrs := [("role", "member")], generated_by := "E1", time := 0 }
     rfl rfl rfl rfl rfl (by decide)).1⟩

/-! ### C5: credential contents -/

theorem foldl_withAttribute_str (l : List (String × String)) : ∀ c0 : Credential,
    l.foldl (fun c p => withAttribute c p.1 (strBytes p.2)) c0 =
      { c0 with attrs := c0.attrs ++ l.map (fun p => (p.1, strBytes p.2)) } := by
  induction l with
  | nil => intro c0; simp
  | cons p rest ih =>
      intro c0
      rw [List.foldl_cons, ih]
      simp [withAttribute]

theorem foldl_withAttribute_bytes (l : List (String × Bytes)) : ∀ c0 : Credential,
    l.foldl (fun c p => withAttribute c p.1 p.2) c0 =
      { c0 with attrs := c0.attrs ++ l } := by
  induction l with
  | nil => intro c0; simp
  | cons p rest ih =>
      intro c0
      rw [List.foldl_cons, ih]
      simp [withAttribute]

/-- C5: every issued credential carries schema identifier 1 and the
reserved `project_id` attribute holding the configured project bytes,
appended after exactly the supplied attributes: for a token redemption
the token's own attribute set (the store is not re-read), for a
bodiless request the attributes of the peer's stored entry. -/
theorem credential_contents (env : Env) (now : Nat) (fresh : Code) (s : Server)
    (i : Identity) (r : Request) :
    (∀ C tkn,
       r.method = some Method.post → pathSegments r.path = ["credential"] →
       r.hasBody = true → r.decodeOneTimeCode = some C →
       alookup s.tokens C = some tkn → now - tkn.time ≤ MAX_TOKEN_DURATION →
       (on_request env now fresh s i (some r)).2 =
         some { re := r.id, status := Status.ok,
                body := RespBody.credential
                  { subject := i, schema := some PROJECT_MEMBER_SCHEMA,
                    attrs := tkn.attrs.map (fun p => (p.1, strBytes p.2)) ++
                      [(PROJECT_ID, s.project)] } }) ∧
    (∀ entry,
       r.method = some Method.post → pathSegments r.path = ["credential"] →
       r.hasBody = false → alookup s.store i = some entry →
       (on_request env now fresh s i (some r)).2 =
         some { re := r.id, status := Status.ok,
                body := RespBody.credential
                  { subject := i, schema := some PROJECT_MEMBER_SCHEMA,
                    attrs := entry.attrs ++ [(PROJECT_ID, s.project)] } }) := by
  constructor
  · intro C tkn hm hp hb hc htk hle
    rw [on_request_redeem env now fresh s i r C hm hp hb hc, htk]
    dsimp only
    rw [if_neg (by omega : ¬ now - tkn.time > MAX_TOKEN_DURATION)]
    dsimp only
    rw [foldl_withAttribute_str]
    simp [credentialBuilder, withSchema, withAttribute, PROJECT_MEMBER_SCHEMA]
  · intro entry hm hp hb hent
    rw [on_request_credential_nobody env now fresh s i r hm hp hb, hent]
    dsimp only
    rw [foldl_withAttribute_bytes]
    simp [credentialBuilder, withSchema, withAttribute, PROJECT_MEMBER_SCHEMA]

/-- Witness for C5: both issuance paths at concrete inputs — redeeming
the cached token of `srvTok` at time 10, and the stored entry of
`srvMem`. -/
theorem credential_contents_witness :
    ((on_request envA 10 [] srvTok "M1" (some reqRedeem)).2 =
      some { re := reqRedeem.id, status := Status.ok,
             body := RespBody.credential
               { subject := "M1", schema := some PROJECT_MEMBER_SCHEMA,
                 attrs := [("role", strBytes "member"), (PROJECT_ID, [1, 2])] } }) ∧
    ((on_request envA 0 [] srvMem "M2" (some reqCredPlain)).2 =
      some { re := reqCredPlain.id, status := Status.ok,
             body := RespBody.credential
               { subject := "M2", schema := some PROJECT_MEMBER_SCHEMA,
                 attrs := [("team", strBytes "A"), (PROJECT_ID, [1, 2])] } }) :=
  ⟨(credential_contents envA 10 [] srvTok "M1" reqRedeem).1 [5]
     { attrs := [("role", "member")], generated_by := "E1", time := 0 }
     rfl rfl rfl rfl rfl (by decide),
   (credential_contents envA 0 [] srvMem "M2" reqCredPlain).2 entryA
     rfl rfl rfl rfl⟩

/-! ### C6: attestation propagation -/

theorem migrate_attested (env : Env) (now : Nat) (legacy : List (String × Bytes)) :
    ∀ st st2, migrate env now st legacy = some st2 →
    ∀ id, ¬ alookup st2 id = alookup st id →
    ∃ en, alookup st2 id = some en ∧ en.attested_by = none := by
  induction legacy with
  | nil =>
      intro st st2 h id hne
      unfold migrate at h
      exact absurd (by rw [Option.some.inj h]) hne
  | cons p rest ih =>
      intro st st2 h id hne
      obtain ⟨k, data⟩ := p
      unfold migrate at h
      cases hd : env.decodeLegacy data with
      | none => rw [hd] at h; exact absurd h (by simp)
      | some m =>
          rw [hd] at h
          dsimp only at h
          cases hti : env.tryIdentifier k with
          | none => rw [hti] at h; exact absurd h (by simp)
          | some idf =>
              rw [hti] at h
              dsimp only at h
              by_cases hcase : alookup st2 id =
                  alookup (aput st idf
                    { attrs := m.map (fun p => (p.1, strBytes p.2)),
                      created_at := now, expires_at := none, attested_by := none }) id
              · rw [alookup_aput] at hcase
                by_cases hid : id = idf
                · rw [if_pos hid] at hcase
                  exact ⟨_, hcase, rfl⟩
                · rw [if_neg hid] at hcase
                  exact absurd hcase hne
              · exact ih _ _ h id hcase

/-- C6: (1) redeeming a token writes an entry for the redeeming peer
with `attested_by` equal to the token's minting enroller — with no
hypothesis on the current enroller directory, so this holds even when
the minter has since been removed from it; (2) a successful
`POST /members` by enroller `i` writes the new member's entry with
`attested_by = i`; (3) every entry the legacy migration of
`Server::new` adds or changes carries `attested_by = None`. -/
theorem attestation_propagation :
    (∀ (env : Env) (now : Nat) (fresh : Code) (s : Server) (i : Identity)
       (r : Request) (C : Code) (tkn : Token),
       r.method = some Method.post → pathSegments r.path = ["credential"] →
       r.hasBody = true → r.decodeOneTimeCode = some C →
       alookup s.tokens C = some tkn → now - tkn.time ≤ MAX_TOKEN_DURATION →
       alookup (on_request env now fresh s i (some r)).1.store i =
         some { attrs := tkn.attrs.map (fun p => (p.1, strBytes p.2)),
                created_at := now, expires_at := none,
                attested_by := some tkn.generated_by }) ∧
    (∀ (env : Env) (now : Nat) (fresh : Code) (s : Server) (i : Identity)
       (r : Request) (m : EnrollerMap) (mid : Identity)
       (attrs : List (String × String)),
       r.method = some Method.post → pathSegments r.path = ["members"] →
       reloadResult env s = Except.ok m → (alookup m i).isSome = true →
       r.decodeAddMember = some (mid, attrs) →
       alookup (on_request env now fresh s i (some r)).1.store mid =
         some { attrs := attrs.map (fun p => (p.1, strBytes p.2)),
                created_at := now, expires_at := none,
                attested_by := some i }) ∧
    (∀ (env : Env) (now : Nat) (project : Bytes) (st0 : Store)
       (enrollers : String) (reload : Bool) (legacy : List (String × Bytes))
       (srv : Server),
       serverNew env now project st0 enrollers reload legacy = some srv →
       ∀ id, ¬ alookup srv.store id = alookup st0 id →
       ∃ en, alookup srv.store id = some en ∧ en.attested_by = none) := by
  refine ⟨?_, ?_, ?_⟩
  · intro env now fresh s i r C tkn hm hp hb hc htk hle
    rw [on_request_redeem env now fresh s i r C hm hp hb hc, htk]
    dsimp only
    rw [if_neg (by omega : ¬ now - tkn.time > MAX_TOKEN_DURATION)]
    dsimp only
    rw [alookup_aput]
    simp
  · intro env now fresh s i r m mid attrs hm hp hrel hmem hadd
    rw [on_request_members env now fresh s i r hm hp, hrel]
    dsimp only
    rw [if_pos hmem, hadd]
    dsimp only
    rw [alookup_aput]
    simp
  · intro env now project st0 enrollers reload legacy srv h id hne
    unfold serverNew at h
    cases hpe : parse_enrollers env enrollers with
    | error e => rw [hpe] at h; exact absurd h (by simp)
    | ok pr =>
        obtain ⟨fn, em⟩ := pr
        rw [hpe] at h
        dsimp only at h
        cases hmig : migrate env now st0 legacy with
        | none => rw [hmig] at h; exact absurd h (by simp)
        | some st =>
            rw [hmig] at h
            dsimp only at h
            have hsrv : srv =
                { project := project, store := st, filename := fn,
                  enrollers := em, reload_enrollers := reload, tokens := [] } :=
              (Option.some.inj h).symm
            subst hsrv
            exact migrate_attested env now legacy st0 st hmig id hne

/-- Witness for C6: the three conjuncts at concrete inputs — a token
whose minter `E1` is absent from the (empty) enroller directory of
`srvTokNoE`, a member addition by `E1` on `srvA`, and the construction
of `srvLegacy` from one legacy record. -/
theorem attestation_propagation_witness :
    (alookup (on_request envA 10 [] srvTokNoE "M1" (some reqRedeem)).1.store "M1" =
      some { attrs := [("role", strBytes "member")], created_at := 10,
             expires_at := none, attested_by := some "E1" }) ∧
    (alookup (on_request envA 0 [] srvA "E1" (some reqMembers)).1.store "M2" =
      some { attrs := [("team", strBytes "A")], created_at := 0,
             expires_at := none, attested_by := some "E1" }) ∧
    (serverNew envInline 0 [1] [] "doc" false [("M9", [7])] = some srvLegacy ∧
     ∃ en, alookup srvLegacy.store "M9" = some en ∧ en.attested_by = none) :=
  ⟨attestation_propagation.1 envA 10 [] srvTokNoE "M1" reqRedeem [5]
     { attrs := [("role", "member")], generated_by := "E1", time := 0 }
     rfl rfl rfl rfl rfl (by decide),
   attestation_propagation.2.1 envA 0 [] srvA "E1" reqMembers
     srvA.enrollers "M2" [("team", "A")] rfl rfl rfl rfl rfl,
   rfl,
   attestation_propagation.2.2 envInline 0 [1] [] "doc" false [("M9", [7])]
     srvLegacy rfl "M9" (by decide)⟩

/-! ### C3: enroller gating -/

/-- C3 counterexample: a `POST /tokens` from peer `X`, which is not in
the current enroller directory, is answered InternalError("io error")
rather than Forbidden("unauthorized enroller"), because the server is
configured to reload its enroller file and the read fails. -/
theorem enroller_gating_counterexample :
    alookup srvR.enrollers "X" = none ∧
    (on_request envA 0 [] srvR "X" (some reqMint)).2 =
      some (api_internal_error reqMint.id "io error") ∧
    ¬ (on_request envA 0 [] srvR "X" (some reqMint)).2 =
        some (api_forbidden reqMint.id "unauthorized enroller") :=
  ⟨rfl, rfl, by decide⟩

/-- C3 (amended): for every POST to `/tokens` or `/members` whose
enroller reload step succeeds (or is not configured), yielding the map
the membership test runs against, a peer absent from that map is
answered Forbidden("unauthorized enroller"), and neither the token
cache nor the attribute store changes; a failed reload instead yields
InternalError (see the hot-reload theorem). -/
theorem enroller_gating (env : Env) (now : Nat) (fresh : Code) (s : Server)
    (i : Identity) (r : Request) (m : EnrollerMap)
    (hm : r.method = some Method.post)
    (hp : pathSegments r.path = ["tokens"] ∨ pathSegments r.path = ["members"])
    (hrel : reloadResult env s = Except.ok m)
    (hmem : alookup m i = none) :
    (on_request env now fresh s i (some r)).2 =
      some (api_forbidden r.id "unauthorized enroller") ∧
    (on_request env now fresh s i (some r)).1.tokens = s.tokens ∧
    (on_request env now fresh s i (some r)).1.store = s.store := by
  have hmem2 : ¬ (alookup m i).isSome = true := by
    rw [hmem]; simp
  rcases hp with hp | hp
  · rw [on_request_tokens env now fresh s i r hm hp, hrel]
    dsimp only
    rw [if_neg hmem2]
    exact ⟨rfl, rfl, rfl⟩
  · rw [on_request_members env now fresh s i r hm hp, hrel]
    dsimp only
    rw [if_neg hmem2]
    exact ⟨rfl, rfl, rfl⟩

/-- Witness for C3 (amended): peer `X` against `srvA`, whose reload is
not configured. -/
theorem enroller_gating_witness :
    reloadResult envA srvA = Except.ok srvA.enrollers ∧
    alookup srvA.enrollers "X" = none ∧
    (on_request envA 0 [] srvA "X" (some reqMint)).2 =
      some (api_forbidden reqMint.id "unauthorized enroller") :=
  ⟨rfl, rfl,
   (enroller_gating envA 0 [] srvA "X" reqMint srvA.enrollers
     rfl (Or.inl rfl) rfl rfl).1⟩

/-! ### C7: hot reload with failure atomicity -/

theorem reloadResult_configured (env : Env) (s : Server) (f : String)
    (hrl : s.reload_enrollers = true) (hf : s.filename = some f) :
    reloadResult env s =
      match env.readFile f with
      | Except.error e => Except.error e
      | Except.ok contents => env.parseJson contents := by
  unfold reloadResult
  rw [hrl, hf]

/-- C7: on an enroller-gated endpoint with reload configured, (1) a
file-read failure is answered InternalError with the failure string and
the whole server state — enroller map included — is unchanged; (2) a
parse failure behaves the same; (3) on success the in-memory map is
replaced by the parsed one before the membership test, which runs
against the new map. -/
theorem hot_reload (env : Env) (now : Nat) (fresh : Code) (s : Server)
    (i : Identity) (r : Request) (f : String)
    (hrl : s.reload_enrollers = true) (hf : s.filename = some f)
    (hm : r.method = some Method.post)
    (hp : pathSegments r.path = ["tokens"] ∨ pathSegments r.path = ["members"]) :
    (∀ msg, env.readFile f = Except.error msg →
       on_request env now fresh s i (some r) =
         (s, some (api_internal_error r.id msg))) ∧
    (∀ contents msg, env.readFile f = Except.ok contents →
       env.parseJson contents = Except.error msg →
       on_request env now fresh s i (some r) =
         (s, some (api_internal_error r.id msg))) ∧
    (∀ contents m, env.readFile f = Except.ok contents →
       env.parseJson contents = Except.ok m →
       (on_request env now fresh s i (some r)).1.enrollers = m ∧
       (alookup m i = none →
         (on_request env now fresh s i (some r)).2 =
           some (api_forbidden r.id "unauthorized enroller"))) := by
  refine ⟨?_, ?_, ?_⟩
  · intro msg hrf
    rcases hp with hp | hp
    · rw [on_request_tokens env now fresh s i r hm hp,
         reloadResult_configured env s f hrl hf, hrf]
    · rw [on_request_members env now fresh s i r hm hp,
         reloadResult_configured env s f hrl hf, hrf]
  · intro contents msg hrf hpj
    rcases hp with hp | hp
    · rw [on_request_tokens env now fresh s i r hm hp,
         reloadResult_configured env s f hrl hf, hrf]
      dsimp only
      rw [hpj]
    · rw [on_request_members env now fresh s i r hm hp,
         reloadResult_configured env s f hrl hf, hrf]
      dsimp only
      rw [hpj]
  · intro contents m hrf hpj
    rcases hp with hp | hp
    · rw [on_request_tokens env now fresh s i r hm hp,
         reloadResult_configured env s f hrl hf, hrf]
      dsimp only
      rw [hpj]
      dsimp only
      constructor
      · by_cases hmem : (alookup m i).isSome
        · rw [if_pos hmem]
          cases r.decodeCreateToken <;> rfl
        · rw [if_neg hmem]
      · intro hnone
        have hmem2 : ¬ (alookup m i).isSome = true := by rw [hnone]; simp
        rw [if_neg hmem2]
    · rw [on_request_members env now fresh s i r hm hp,
         reloadResult_configured env s f hrl hf, hrf]
      dsimp only
      rw [hpj]
      dsimp only
      constructor
      · by_cases hmem : (alookup m i).isSome
        · rw [if_pos hmem]
          cases r.decodeAddMember <;> rfl
        · rw [if_neg hmem]
      · intro hnone
        have hmem2 : ¬ (alookup m i).isSome = true := by rw [hnone]; simp
        rw [if_neg hmem2]

/-- Witness for C7: on `srvR`, the unreadable file of `envA` fails the
request with InternalError and leaves the server untouched, while the
readable file of `envReloadOk` replaces the map with
`[("E2", "enroller two")]`, so the formerly enrolled `E1` is refused. -/
theorem hot_reload_witness :
    (on_request envA 0 [] srvR "X" (some reqMint) =
      (srvR, some (api_internal_error reqMint.id "io error"))) ∧
    ((on_request envReloadOk 0 [] srvR "E1" (some reqMint)).1.enrollers =
      [("E2", "enroller two")]) ∧
    ((on_request envReloadOk 0 [] srvR "E1" (some reqMint)).2 =
      some (api_forbidden reqMint.id "unauthorized enroller")) :=
  ⟨(hot_reload envA 0 [] srvR "X" reqMint "enr.json"
     rfl rfl rfl (Or.inl rfl)).1 "io error" rfl,
   ((hot_reload envReloadOk 0 [] srvR "E1" reqMint "enr.json"
     rfl rfl rfl (Or.inl rfl)).2.2 "newdoc" [("E2", "enroller two")] rfl rfl).1,
   ((hot_reload envReloadOk 0 [] srvR "E1" reqMint "enr.json"
     rfl rfl rfl (Or.inl rfl)).2.2 "newdoc" [("E2", "enroller two")] rfl rfl).2 rfl⟩

/-! ### C8: cache bound -/

/-- C8: from any state `Server::new` builds, every run of the server
keeps at most 128 cached tokens; and inserting a fresh code into a full
cache of 128 unconditionally evicts the least-recently-used entry (the
back of the recency list). -/
theorem cache_bound :
    (∀ (env : Env) (now : Nat) (project : Bytes) (st0 : Store)
       (enrollers : String) (reload : Bool) (legacy : List (String × Bytes))
       (srv : Server) (es : List Event),
       serverNew env now project st0 enrollers reload legacy = some srv →
       (runServer srv es).tokens.length ≤ 128) ∧
    (∀ (l : List (Code × Token)) (k : Code) (v : Token),
       l.length = 128 → alookup l k = none →
       lruPut 128 k v l = (k, v) :: l.dropLast) := by
  constructor
  · intro env now project st0 enrollers reload legacy srv es h
    have h0 : srv.tokens = [] := by
      unfold serverNew at h
      cases hpe : parse_enrollers env enrollers with
      | error e => rw [hpe] at h; exact absurd h (by simp)
      | ok pr =>
          obtain ⟨fn, em⟩ := pr
          rw [hpe] at h
          dsimp only at h
          cases hmig : migrate env now st0 legacy with
          | none => rw [hmig] at h; exact absurd h (by simp)
          | some st =>
              rw [hmig] at h
              dsimp only at h
              rw [← Option.some.inj h]
    exact runServer_tokens_length es srv (by rw [h0]; simp)
  · intro l k v hlen habs
    exact lruPut_full k v l hlen habs

set_option maxRecDepth 4096 in
/-- Witness for C8: a freshly constructed server run over the
mint-redeem-redeem trace, and a concrete full cache of 128 entries. -/
theorem cache_bound_witness :
    serverNew envInline 0 [1, 2] [] "doc" false [] = some srvA ∧
    (runServer srvA esA).tokens.length ≤ 128 ∧
    l128.length = 128 ∧ alookup l128 [200] = none ∧
    lruPut 128 [200] tkn0 l128 = ([200], tkn0) :: l128.dropLast :=
  ⟨rfl,
   cache_bound.1 envInline 0 [1, 2] [] "doc" false [] srvA esA rfl,
   by decide, by decide,
   cache_bound.2 l128 [200] tkn0 (by decide) (by decide)⟩

/-! ### C9: BadRequest on decode failure -/

/-- C9 counterexample: a request over a secure channel whose header
fails to decode produces no response at all — `on_request` propagates
the decode error — so no response with status BadRequest exists. -/
theorem bad_request_counterexample :
    (on_request envA 0 [] srvA "E1" none).2 = none ∧
    ¬ (∃ resp, (on_request envA 0 [] srvA "E1" none).2 = some resp ∧
        resp.status = Status.badRequest) := by
  constructor
  · rfl
  · rw [on_request_header_fail]
    simp

/-- C9 (amended): a decode failure of the frame header or of an
endpoint body makes the handler fail with the decode error: no response
of any status is produced, and neither the token cache nor the
attribute store changes. -/
theorem decode_failure_no_response (env : Env) (now : Nat) (fresh : Code)
    (s : Server) (i : Identity) :
    (on_request env now fresh s i none = (s, none)) ∧
    (∀ r m, r.method = some Method.post → pathSegments r.path = ["tokens"] →
       reloadResult env s = Except.ok m → (alookup m i).isSome = true →
       r.decodeCreateToken = none →
       (on_request env now fresh s i (some r)).2 = none ∧
       (on_request env now fresh s i (some r)).1.tokens = s.tokens ∧
       (on_request env now fresh s i (some r)).1.store = s.store) ∧
    (∀ r m, r.method = some Method.post → pathSegments r.path = ["members"] →
       reloadResult env s = Except.ok m → (alookup m i).isSome = true →
       r.decodeAddMember = none →
       (on_request env now fresh s i (some r)).2 = none ∧
       (on_request env now fresh s i (some r)).1.tokens = s.tokens ∧
       (on_request env now fresh s i (some r)).1.store = s.store) ∧
    (∀ r, r.method = some Method.post → pathSegments r.path = ["credential"] →
       r.hasBody = true → r.decodeOneTimeCode = none →
       on_request env now fresh s i (some r) = (s, none)) := by
  refine ⟨rfl, ?_, ?_, ?_⟩
  · intro r m hm hp hrel hmem hdec
    rw [on_request_tokens env now fresh s i r hm hp, hrel]
    dsimp only
    rw [if_pos hmem, hdec]
    exact ⟨rfl, rfl, rfl⟩
  · intro r m hm hp hrel hmem hdec
    rw [on_request_members env now fresh s i r hm hp, hrel]
    dsimp only
    rw [if_pos hmem, hdec]
    exact ⟨rfl, rfl, rfl⟩
  · intro r hm hp hb hc
    exact on_request_redeem_decode_fail env now fresh s i r hm hp hb hc

/-- Witness for C9 (amended): the `CreateToken` and `OneTimeCode`
decode-failure requests against `srvA`. -/
theorem decode_failure_no_response_witness :
    reloadResult envA srvA = Except.ok srvA.enrollers ∧
    (alookup srvA.enrollers "E1").isSome = true ∧
    (on_request envA 0 [] srvA "E1" (some reqMintBad)).2 = none ∧
    on_request envA 0 [] srvA "M1" (some reqRedeemBad) = (srvA, none) :=
  ⟨rfl, rfl,
   ((decode_failure_no_response envA 0 [] srvA "E1").2.1 reqMintBad
     srvA.enrollers rfl rfl rfl rfl rfl).1,
   (decode_failure_no_response envA 0 [] srvA "M1").2.2.2 reqRedeemBad
     rfl rfl rfl rfl⟩

/-! ### C10: an inline document disables reload -/

theorem on_request_env_independent (s : Server) (hf : s.filename = none)
    (env1 env2 : Env) (now : Nat) (fresh : Code) (i : Identity)
    (d : Option Request) :
    on_request env1 now fresh s i d = on_request env2 now fresh s i d := by
  cases d with
  | none => rfl
  | some r =>
      simp only [on_request, check_enroller_nofile env1 s r i hf,
        check_enroller_nofile env2 s r i hf]

theorem reloadResult_nofile (env : Env) (s : Server) (hf : s.filename = none) :
    reloadResult env s = Except.ok s.enrollers := by
  unfold reloadResult
  rw [hf]
  cases s.reload_enrollers <;> rfl

theorem on_request_enrollers_cases (env : Env) (now : Nat) (fresh : Code)
    (s : Server) (i : Identity) (d : Option Request) :
    (on_request env now fresh s i d).1.enrollers = s.enrollers ∨
    (∃ m, reloadResult env s = Except.ok m ∧
      (on_request env now fresh s i d).1.enrollers = m) := by
  cases d with
  | none => exact Or.inl rfl
  | some r =>
      by_cases hm : r.method = some Method.post
      · by_cases h1 : pathSegments r.path = ["tokens"]
        · rw [on_request_tokens env now fresh s i r hm h1]
          cases hrel : reloadResult env s with
          | error e2 => exact Or.inl rfl
          | ok m =>
              dsimp only
              by_cases hmem : (alookup m i).isSome
              · rw [if_pos hmem]
                cases r.decodeCreateToken with
                | none => exact Or.inr ⟨m, rfl, rfl⟩
                | some att => exact Or.inr ⟨m, rfl, rfl⟩
              · rw [if_neg hmem]
                exact Or.inr ⟨m, rfl, rfl⟩
        · by_cases h2 : pathSegments r.path = ["members"]
          · rw [on_request_members env now fresh s i r hm h2]
            cases hrel : reloadResult env s with
            | error e2 => exact Or.inl rfl
            | ok m =>
                dsimp only
                by_cases hmem : (alookup m i).isSome
                · rw [if_pos hmem]
                  cases r.decodeAddMember with
                  | none => exact Or.inr ⟨m, rfl, rfl⟩
                  | some add => exact Or.inr ⟨m, rfl, rfl⟩
                · rw [if_neg hmem]
                  exact Or.inr ⟨m, rfl, rfl⟩
          · by_cases h3 : pathSegments r.path = ["credential"]
            · cases hb : r.hasBody with
              | false =>
                  rw [on_request_credential_nobody env now fresh s i r hm h3 hb]
                  cases alookup s.store i <;> exact Or.inl rfl
              | true =>
                  cases hc : r.decodeOneTimeCode with
                  | none =>
                      rw [on_request_redeem_decode_fail env now fresh s i r hm h3 hb hc]
                      exact Or.inl rfl
                  | some C =>
                      rw [on_request_redeem env now fresh s i r C hm h3 hb hc]
                      cases alookup s.tokens C with
                      | none => exact Or.inl rfl
                      | some tkn =>
                          dsimp only
                          by_cases hexp : now - tkn.time > MAX_TOKEN_DURATION
                          · rw [if_pos hexp]; exact Or.inl rfl
                          · rw [if_neg hexp]; exact Or.inl rfl
            · rw [on_request_unknown_path env now fresh s i r hm h1 h2 h3]
              exact Or.inl rfl
      · rw [on_request_bad_method env now fresh s i r hm]
        exact Or.inl rfl

/-- C10: when the enroller source string parses as an inline document,
construction records no source path (`filename = None`) and keeps the
parsed map; and on any server without a recorded path, handling a
message never consults the environment (so nothing is re-read from
disk, whatever the reload flag says) and never changes the enroller
map fixed at construction. -/
theorem inline_document_fixes_enrollers :
    (∀ (env : Env) (str : String) (m : EnrollerMap) (now : Nat)
       (project : Bytes) (st0 : Store) (reload : Bool)
       (legacy : List (String × Bytes)) (srv : Server),
       env.parseJson str = Except.ok m →
       parse_enrollers env str = Except.ok (none, m) ∧
       (serverNew env now project st0 str reload legacy = some srv →
        srv.filename = none ∧ srv.enrollers = m)) ∧
    (∀ s : Server, s.filename = none →
       ∀ (env1 env2 : Env) (now : Nat) (fresh : Code)
         (sender : Option Identity) (req : Option Request),
       handle_message env1 now fresh s sender req =
         handle_message env2 now fresh s sender req ∧
       (handle_message env1 now fresh s sender req).1.enrollers = s.enrollers) := by
  constructor
  · intro env str m now project st0 reload legacy srv hpj
    have hpe : parse_enrollers env str = Except.ok (none, m) := by
      unfold parse_enrollers
      rw [hpj]
    refine ⟨hpe, ?_⟩
    intro h
    unfold serverNew at h
    rw [hpe] at h
    dsimp only at h
    cases hmig : migrate env now st0 legacy with
    | none => rw [hmig] at h; exact absurd h (by simp)
    | some st =>
        rw [hmig] at h
        dsimp only at h
        have hsrv := Option.some.inj h
        rw [← hsrv]
        exact ⟨rfl, rfl⟩
  · intro s hf env1 env2 now fresh sender req
    cases sender with
    | none => cases req <;> exact ⟨rfl, rfl⟩
    | some i =>
        constructor
        · exact on_request_env_independent s hf env1 env2 now fresh i req
        · rcases on_request_enrollers_cases env1 now fresh s i req with
            h | ⟨m, hrel, heq⟩
          · exact h
          · show (on_request env1 now fresh s i req).1.enrollers = s.enrollers
            rw [reloadResult_nofile env1 s hf] at hrel
            rw [heq, ← Except.ok.inj hrel]

/-- Witness for C10: the inline document of `envInline`, and `srvA`
(no recorded path) handled under two different environments. -/
theorem inline_document_fixes_enrollers_witness :
    envInline.parseJson "doc" = Except.ok [("E1", "enroller one")] ∧
    parse_enrollers envInline "doc" = Except.ok (none, [("E1", "enroller one")]) ∧
    (handle_message envA 0 [5] srvA (some "E1") (some reqMint) =
      handle_message envReloadOk 0 [5] srvA (some "E1") (some reqMint)) ∧
    (handle_message envA 0 [5] srvA (some "E1") (some reqMint)).1.enrollers =
      srvA.enrollers :=
  ⟨rfl,
   (inline_document_fixes_enrollers.1 envInline "doc" [("E1", "enroller one")]
     0 [1] [] false [] srvLegacy rfl).1,
   (inline_document_fixes_enrollers.2 srvA rfl envA envReloadOk 0 [5]
     (some "E1") (some reqMint)).1,
   (inline_document_fixes_enrollers.2 srvA rfl envA envReloadOk 0 [5]
     (some "E1") (some reqMint)).2⟩
